import Mathlib

/-!
Verification of the authenticated item store in `src/server.js`.

The embedding models the data (an `Item` record, the persisted document as a
list of items), the two authentication gates (`requireReadKey`,
`requireAdminKey`), and the six route handlers (create, list, query by name,
update by id, delete by id, delete all).  JavaScript strings are modelled as
Lean strings; `String.prototype.trim` is modelled by `jsTrim`; request body
fields, which may be absent or not a string, are modelled by `Field`; header
credentials are `Option String`, with the JavaScript falsiness of the empty
string handled explicitly.  The nondeterministic inputs of the handlers
(`crypto.randomUUID()`, `Date.now()`) are passed as parameters.
-/

namespace ItemStore

/-- Model of JavaScript `String.prototype.trim`: drop whitespace characters
from the front and from the back of the string. -/
def jsTrim (s : String) : String :=
  ⟨((s.data.dropWhile Char.isWhitespace).reverse.dropWhile Char.isWhitespace).reverse⟩

/-- True when the first character of the list is not whitespace (vacuously true
for the empty list). -/
def headNotWS : List Char → Bool
  | [] => true
  | c :: _ => !c.isWhitespace

/-- The string has no leading and no trailing whitespace. -/
def noEdgeWS (s : String) : Bool :=
  headNotWS s.data && headNotWS s.data.reverse

/-- A stored item: the fields pushed by the POST /tx handler. -/
structure Item where
  id : String
  name : String
  value : String
  time : Nat
deriving Repr, DecidableEq

/-- The persisted document: `db.data.items`, an ordered list. -/
abbrev Doc := List Item

/-- The ids present in a document. -/
def ids (d : Doc) : List String := d.map Item.id

/-- A request body field as seen by the handlers: absent, a string, or a
JSON value of some other type (`typeof x !== "string"`). -/
inductive Field where
  | absent
  | str (s : String)
  | nonString
deriving Repr, DecidableEq

/-- Roles assigned by the gates (`req.apiRole`). -/
inductive Role where
  | admin
  | readonly
deriving Repr, DecidableEq

/-- Outcome of an authentication gate: an HTTP rejection with a status code
and an error message, or a grant with a role. -/
inductive GateResult where
  | reject (status : Nat) (msg : String)
  | grant (role : Role)
deriving Repr, DecidableEq

/-- The `requireReadKey` middleware of `src/server.js` (admin OR readonly).
The header is `none` when absent; an empty-string header is falsy in
JavaScript and is rejected by the `!key` check exactly like an absent one.
`key === READONLY_API_KEY` is false whenever the environment variable is
absent (`roKey = none`), because `key` is a string. -/
def requireReadKey (adminKey : String) (roKey : Option String)
    (key : Option String) : GateResult :=
  match key with
  | none => GateResult.reject 401 "API key required"
  | some k =>
    if k = "" then GateResult.reject 401 "API key required"
    else if k = adminKey then GateResult.grant Role.admin
    else if roKey = some k then GateResult.grant Role.readonly
    else GateResult.reject 401 "Unauthorized"

/-- The `requireAdminKey` middleware of `src/server.js` (admin ONLY):
`if (!key || key !== API_KEY)` rejects with one message for both the missing
and the wrong credential. -/
def requireAdminKey (adminKey : String) (key : Option String) : GateResult :=
  match key with
  | none => GateResult.reject 401 "Admin API key required"
  | some k =>
    if k = "" then GateResult.reject 401 "Admin API key required"
    else if k ≠ adminKey then GateResult.reject 401 "Admin API key required"
    else GateResult.grant Role.admin

/-- Outcome of the POST /tx handler body. -/
inductive CreateResult where
  | invalidName
  | invalidValue
  | created (item : Item)
deriving Repr, DecidableEq

/-- The POST /tx handler body: validate the raw field lengths, then push an
item with the trimmed fields, a fresh id and the current time.  `newId` stands
for `crypto.randomUUID()` and `now` for `Date.now()`. -/
def createTx (nameF valueF : Field) (newId : String) (now : Nat) (doc : Doc) :
    CreateResult × Doc :=
  match nameF, valueF with
  | Field.str name, Field.str value =>
    if name.length < 1 ∨ name.length > 100 then (CreateResult.invalidName, doc)
    else if value.length < 1 ∨ value.length > 500 then (CreateResult.invalidValue, doc)
    else
      let item : Item := { id := newId, name := jsTrim name, value := jsTrim value, time := now }
      (CreateResult.created item, doc ++ [item])
  | Field.str name, _ =>
    if name.length < 1 ∨ name.length > 100 then (CreateResult.invalidName, doc)
    else (CreateResult.invalidValue, doc)
  | _, _ => (CreateResult.invalidName, doc)

/-- The GET /rx handler body returns `db.data.items`. -/
def listAll (doc : Doc) : List Item := doc

/-- The GET /rx/:name handler body: filter the items whose name equals the
path parameter exactly. -/
def queryByName (n : String) (doc : Doc) : List Item :=
  doc.filter (fun i => decide (i.name = n))

/-- First mutation of the PUT /tx/:id handler: `item.name = name.trim()` when
the supplied name is a string with raw length in (0, 100]. -/
def updName (nameF : Field) (it : Item) : Item :=
  match nameF with
  | Field.str name =>
    if name.length > 0 ∧ name.length ≤ 100 then { it with name := jsTrim name } else it
  | _ => it

/-- Second mutation of the PUT /tx/:id handler: `item.value = value.trim()`
when the supplied value is a string with raw length in (0, 500]. -/
def updValue (valueF : Field) (it : Item) : Item :=
  match valueF with
  | Field.str value =>
    if value.length > 0 ∧ value.length ≤ 500 then { it with value := jsTrim value } else it
  | _ => it

/-- The field mutation of the PUT /tx/:id handler: each supplied field that is
a string with raw length in bounds is replaced by its trimmed form, each other
field is left as it is, and the timestamp is refreshed unconditionally. -/
def applyUpdate (nameF valueF : Field) (now : Nat) (it : Item) : Item :=
  { updValue valueF (updName nameF it) with time := now }

/-- In-place update of the first item carrying the id, as done by
`db.data.items.find(...)` followed by mutation of the found object.  Returns
the updated item (if any) together with the new document. -/
def updateFirst (idp : String) (nameF valueF : Field) (now : Nat) :
    Doc → Option Item × Doc
  | [] => (none, [])
  | i :: rest =>
    if i.id = idp then
      (some (applyUpdate nameF valueF now i), applyUpdate nameF valueF now i :: rest)
    else
      let r := updateFirst idp nameF valueF now rest
      (r.1, i :: r.2)

/-- Outcome of the PUT /tx/:id handler body. -/
inductive UpdateResult where
  | notFound
  | updated (item : Item)
deriving Repr, DecidableEq

/-- The PUT /tx/:id handler body: 404 when no item has the id, otherwise
mutate the found item in place and return it. -/
def updateById (idp : String) (nameF valueF : Field) (now : Nat) (doc : Doc) :
    UpdateResult × Doc :=
  match updateFirst idp nameF valueF now doc with
  | (none, _) => (UpdateResult.notFound, doc)
  | (some it, doc') => (UpdateResult.updated it, doc')

/-- Removal of the first item carrying the id, as done by `findIndex` followed
by `splice(index, 1)`.  Returns the removed item (if any) and the new
document. -/
def deleteFirst (idp : String) : Doc → Option Item × Doc
  | [] => (none, [])
  | i :: rest =>
    if i.id = idp then (some i, rest)
    else
      let r := deleteFirst idp rest
      (r.1, i :: r.2)

/-- The DELETE /tx/:id handler body: 404 when no item has the id, otherwise
remove and return the item. -/
def deleteById (idp : String) (doc : Doc) : Option Item × Doc :=
  match deleteFirst idp doc with
  | (none, _) => (none, doc)
  | (some it, doc') => (some it, doc')

/-- The DELETE /tx handler body: record the count, clear the list. -/
def deleteAllTx (doc : Doc) : Nat × Doc := (doc.length, [])

/-- The observable storage effects of a handler, in program order:
`read` is `await db.read()`, `write` is `await db.write()`, `respond` is
`res.json(...)`. -/
inductive Effect where
  | read
  | write
  | respond
deriving Repr, DecidableEq

/-- A handler run: its effect trace in program order, the resulting on-disk
document, and whether it acknowledged success (as opposed to a 4xx error). -/
structure HandlerOut where
  trace : List Effect
  disk : Doc
  ok : Bool
deriving Repr, DecidableEq

/-- The POST /tx handler with its effects: no reload; on a valid body, push
then `db.write()` then respond. -/
def postTx (nameF valueF : Field) (newId : String) (now : Nat) (disk : Doc) :
    HandlerOut :=
  match createTx nameF valueF newId now disk with
  | (CreateResult.created _, doc') => ⟨[Effect.write, Effect.respond], doc', true⟩
  | (_, _) => ⟨[Effect.respond], disk, false⟩

/-- The GET /rx handler with its effects: `db.read()` then respond. -/
def getRx (disk : Doc) : HandlerOut :=
  ⟨[Effect.read, Effect.respond], disk, true⟩

/-- The GET /rx/:name handler with its effects: `db.read()` then respond. -/
def getRxName (_n : String) (disk : Doc) : HandlerOut :=
  ⟨[Effect.read, Effect.respond], disk, true⟩

/-- The PUT /tx/:id handler with its effects: `db.read()`, find; on a hit,
mutate, `db.write()`, respond; on a miss, respond 404. -/
def putTx (idp : String) (nameF valueF : Field) (now : Nat) (disk : Doc) :
    HandlerOut :=
  match updateById idp nameF valueF now disk with
  | (UpdateResult.updated _, doc') => ⟨[Effect.read, Effect.write, Effect.respond], doc', true⟩
  | (UpdateResult.notFound, _) => ⟨[Effect.read, Effect.respond], disk, false⟩

/-- The DELETE /tx/:id handler with its effects. -/
def deleteTx (idp : String) (disk : Doc) : HandlerOut :=
  match deleteById idp disk with
  | (some _, doc') => ⟨[Effect.read, Effect.write, Effect.respond], doc', true⟩
  | (none, _) => ⟨[Effect.read, Effect.respond], disk, false⟩

/-- The DELETE /tx handler with its effects: `db.read()`, clear,
`db.write()`, respond. -/
def deleteTxAll (_disk : Doc) : HandlerOut :=
  ⟨[Effect.read, Effect.write, Effect.respond], [], true⟩

/-- The effect occurs in the trace strictly before the first `respond`. -/
def beforeRespond (e : Effect) : List Effect → Bool
  | [] => false
  | Effect.respond :: _ => false
  | x :: rest => decide (x = e) || beforeRespond e rest

/-- The six store operations exposed over HTTP. -/
inductive Op where
  | create
  | listAll
  | queryByName
  | updateById
  | deleteById
  | deleteAll
deriving Repr, DecidableEq

/-- The two gate middlewares. -/
inductive Gate where
  | adminOnly
  | readAllowed
deriving Repr, DecidableEq

/-- The gate attached to each route in `src/server.js`: POST /tx, PUT /tx/:id,
DELETE /tx/:id and DELETE /tx are registered with `requireAdminKey`; GET /rx
and GET /rx/:name with `requireReadKey`. -/
def routeGate : Op → Gate
  | Op.create => Gate.adminOnly
  | Op.listAll => Gate.readAllowed
  | Op.queryByName => Gate.readAllowed
  | Op.updateById => Gate.adminOnly
  | Op.deleteById => Gate.adminOnly
  | Op.deleteAll => Gate.adminOnly

/-- The operations that mutate the document. -/
def isMutatingOp : Op → Bool
  | Op.listAll => false
  | Op.queryByName => false
  | _ => true

/-- Run the gate a route is registered with. -/
def runGate : Gate → String → Option String → Option String → GateResult
  | Gate.adminOnly, adminKey, _, key => requireAdminKey adminKey key
  | Gate.readAllowed, adminKey, roKey, key => requireReadKey adminKey roKey key

/-- Whether a gate outcome lets the request through to the handler. -/
def isGrant : GateResult → Bool
  | GateResult.grant _ => true
  | _ => false

/-- One mutating handler step on the document, with arbitrary request data. -/
inductive Step : Doc → Doc → Prop where
  | create (nf vf : Field) (newId : String) (now : Nat) (d : Doc) :
      Step d (createTx nf vf newId now d).2
  | update (idp : String) (nf vf : Field) (now : Nat) (d : Doc) :
      Step d (updateById idp nf vf now d).2
  | deleteOne (idp : String) (d : Doc) :
      Step d (deleteById idp d).2
  | clear (d : Doc) :
      Step d []

/-- Documents reachable from the initial empty document through the
handlers. -/
inductive Reachable : Doc → Prop where
  | init : Reachable []
  | step (d d' : Doc) : Reachable d → Step d d' → Reachable d'

/-- Well-formedness of a stored item: field lengths bounded above and no
leading or trailing whitespace.  (The lower bound of 1 does NOT hold, see the
counterexample for C1: a whitespace-only input passes raw-length validation
and is stored trimmed to the empty string.) -/
def itemWF (it : Item) : Prop :=
  it.name.length ≤ 100 ∧ it.value.length ≤ 500 ∧
    noEdgeWS it.name = true ∧ noEdgeWS it.value = true

theorem dropWhile_len_le {α : Type} (p : α → Bool) (l : List α) :
    (l.dropWhile p).length ≤ l.length := by
  induction l with
  | nil => exact Nat.le_refl _
  | cons a l ih =>
    by_cases h : p a
    · rw [List.dropWhile_cons_of_pos h]
      exact Nat.le_succ_of_le ih
    · rw [List.dropWhile_cons_of_neg (by simpa using h)]

theorem headNotWS_dropWhile (l : List Char) :
    headNotWS (l.dropWhile Char.isWhitespace) = true := by
  induction l with
  | nil => rfl
  | cons a l ih =>
    by_cases h : a.isWhitespace
    · rw [List.dropWhile_cons_of_pos h]
      exact ih
    · rw [List.dropWhile_cons_of_neg (by simpa using h)]
      simpa [headNotWS] using h

theorem exists_append_dropWhile {α : Type} (p : α → Bool) (l : List α) :
    ∃ t, t ++ l.dropWhile p = l := by
  induction l with
  | nil => exact ⟨[], rfl⟩
  | cons a l ih =>
    by_cases h : p a
    · obtain ⟨t, ht⟩ := ih
      rw [List.dropWhile_cons_of_pos h]
      exact ⟨a :: t, by rw [List.cons_append, ht]⟩
    · rw [List.dropWhile_cons_of_neg (by simpa using h)]
      exact ⟨[], rfl⟩

theorem headNotWS_append_left (l t : List Char)
    (h : headNotWS (l ++ t) = true) : headNotWS l = true := by
  cases l with
  | nil => rfl
  | cons a l => simpa [headNotWS] using h

theorem noEdgeWS_jsTrim (s : String) : noEdgeWS (jsTrim s) = true := by
  rw [noEdgeWS, jsTrim]
  rw [Bool.and_eq_true]
  refine ⟨?_, ?_⟩
  · obtain ⟨t, ht⟩ :=
      exists_append_dropWhile Char.isWhitespace
        (s.data.dropWhile Char.isWhitespace).reverse
    have hrev :
        ((s.data.dropWhile Char.isWhitespace).reverse.dropWhile
            Char.isWhitespace).reverse ++ t.reverse =
          s.data.dropWhile Char.isWhitespace := by
      rw [← List.reverse_append, ht, List.reverse_reverse]
    have h1 := headNotWS_dropWhile s.data
    rw [← hrev] at h1
    exact headNotWS_append_left _ _ h1
  · rw [List.reverse_reverse]
    exact headNotWS_dropWhile (s.data.dropWhile Char.isWhitespace).reverse

theorem jsTrim_length_le (s : String) : (jsTrim s).length ≤ s.length := by
  show (((s.data.dropWhile Char.isWhitespace).reverse.dropWhile
      Char.isWhitespace).reverse).length ≤ s.data.length
  rw [List.length_reverse]
  calc ((s.data.dropWhile Char.isWhitespace).reverse.dropWhile
          Char.isWhitespace).length
      ≤ (s.data.dropWhile Char.isWhitespace).reverse.length :=
        dropWhile_len_le _ _
    _ = (s.data.dropWhile Char.isWhitespace).length := List.length_reverse _
    _ ≤ s.data.length := dropWhile_len_le _ _

/-- An item built by the create or update handlers from an in-bounds raw
string is well formed. -/
theorem itemWF_trimmed (newId : String) (name value : String) (now : Nat)
    (hn : name.length ≤ 100) (hv : value.length ≤ 500) :
    itemWF { id := newId, name := jsTrim name, value := jsTrim value, time := now } := by
  exact ⟨Nat.le_trans (jsTrim_length_le name) hn,
    Nat.le_trans (jsTrim_length_le value) hv,
    noEdgeWS_jsTrim name, noEdgeWS_jsTrim value⟩

theorem itemWF_updName (nf : Field) (it : Item) (h : itemWF it) :
    itemWF (updName nf it) := by
  cases nf with
  | str name =>
    rw [updName]
    by_cases hc : name.length > 0 ∧ name.length ≤ 100
    · rw [if_pos hc]
      exact ⟨Nat.le_trans (jsTrim_length_le name) hc.2, h.2.1,
        noEdgeWS_jsTrim name, h.2.2.2⟩
    · rw [if_neg hc]; exact h
  | absent => exact h
  | nonString => exact h

theorem itemWF_updValue (vf : Field) (it : Item) (h : itemWF it) :
    itemWF (updValue vf it) := by
  cases vf with
  | str value =>
    rw [updValue]
    by_cases hc : value.length > 0 ∧ value.length ≤ 500
    · rw [if_pos hc]
      exact ⟨h.1, Nat.le_trans (jsTrim_length_le value) hc.2,
        h.2.2.1, noEdgeWS_jsTrim value⟩
    · rw [if_neg hc]; exact h
  | absent => exact h
  | nonString => exact h

theorem itemWF_applyUpdate (nf vf : Field) (now : Nat) (it : Item)
    (h : itemWF it) : itemWF (applyUpdate nf vf now it) :=
  itemWF_updValue vf (updName nf it) (itemWF_updName nf it h)

theorem createTx_mem (nf vf : Field) (newId : String) (now : Nat) (d : Doc)
    (it : Item) (hmem : it ∈ (createTx nf vf newId now d).2) :
    it ∈ d ∨ ∃ name value : String, name.length ≤ 100 ∧ value.length ≤ 500 ∧
      it = { id := newId, name := jsTrim name, value := jsTrim value, time := now } := by
  cases nf with
  | str name =>
    cases vf with
    | str value =>
      simp only [createTx] at hmem
      by_cases h1 : name.length < 1 ∨ name.length > 100
      · rw [if_pos h1] at hmem; exact Or.inl hmem
      · rw [if_neg h1] at hmem
        by_cases h2 : value.length < 1 ∨ value.length > 500
        · rw [if_pos h2] at hmem; exact Or.inl hmem
        · rw [if_neg h2] at hmem
          rcases List.mem_append.mp hmem with h | h
          · exact Or.inl h
          · refine Or.inr ⟨name, value, by omega, by omega, ?_⟩
            simpa using h
    | absent =>
      simp only [createTx] at hmem
      by_cases h1 : name.length < 1 ∨ name.length > 100
      · rw [if_pos h1] at hmem; exact Or.inl hmem
      · rw [if_neg h1] at hmem; exact Or.inl hmem
    | nonString =>
      simp only [createTx] at hmem
      by_cases h1 : name.length < 1 ∨ name.length > 100
      · rw [if_pos h1] at hmem; exact Or.inl hmem
      · rw [if_neg h1] at hmem; exact Or.inl hmem
  | absent =>
    cases vf <;> simp only [createTx] at hmem <;> exact Or.inl hmem
  | nonString =>
    cases vf <;> simp only [createTx] at hmem <;> exact Or.inl hmem

theorem updateFirst_mem (idp : String) (nf vf : Field) (now : Nat) (d : Doc)
    (it : Item) (hmem : it ∈ (updateFirst idp nf vf now d).2) :
    it ∈ d ∨ ∃ x ∈ d, it = applyUpdate nf vf now x := by
  induction d with
  | nil => simp [updateFirst] at hmem
  | cons i rest ih =>
    rw [updateFirst] at hmem
    by_cases h : i.id = idp
    · rw [if_pos h] at hmem
      rcases List.mem_cons.mp hmem with h1 | h1
      · exact Or.inr ⟨i, List.mem_cons_self i rest, h1⟩
      · exact Or.inl (List.mem_cons_of_mem i h1)
    · rw [if_neg h] at hmem
      rcases List.mem_cons.mp hmem with h1 | h1
      · exact Or.inl (h1 ▸ List.mem_cons_self i rest)
      · rcases ih h1 with h2 | ⟨x, hx, h3⟩
        · exact Or.inl (List.mem_cons_of_mem i h2)
        · exact Or.inr ⟨x, List.mem_cons_of_mem i hx, h3⟩

theorem updateById_mem (idp : String) (nf vf : Field) (now : Nat) (d : Doc)
    (it : Item) (hmem : it ∈ (updateById idp nf vf now d).2) :
    it ∈ d ∨ ∃ x ∈ d, it = applyUpdate nf vf now x := by
  rw [updateById] at hmem
  rcases hu : updateFirst idp nf vf now d with ⟨o, doc'⟩
  rw [hu] at hmem
  cases o with
  | none => exact Or.inl hmem
  | some u =>
    have : doc' = (updateFirst idp nf vf now d).2 := by rw [hu]
    exact updateFirst_mem idp nf vf now d it (this ▸ hmem)

theorem deleteFirst_mem (idp : String) (d : Doc) (it : Item)
    (hmem : it ∈ (deleteFirst idp d).2) : it ∈ d := by
  induction d with
  | nil => simp [deleteFirst] at hmem
  | cons i rest ih =>
    rw [deleteFirst] at hmem
    by_cases h : i.id = idp
    · rw [if_pos h] at hmem
      exact List.mem_cons_of_mem i hmem
    · rw [if_neg h] at hmem
      rcases List.mem_cons.mp hmem with h1 | h1
      · exact h1 ▸ List.mem_cons_self i rest
      · exact List.mem_cons_of_mem i (ih h1)

theorem deleteById_mem (idp : String) (d : Doc) (it : Item)
    (hmem : it ∈ (deleteById idp d).2) : it ∈ d := by
  rw [deleteById] at hmem
  rcases hu : deleteFirst idp d with ⟨o, doc'⟩
  rw [hu] at hmem
  cases o with
  | none => exact hmem
  | some u =>
    have : doc' = (deleteFirst idp d).2 := by rw [hu]
    exact deleteFirst_mem idp d it (this ▸ hmem)

/-- C1 (amended): every item in a document reachable through the handlers has
a name of at most 100 characters and a value of at most 500 characters, and
neither field has leading or trailing whitespace.  (The lower bound of one
character claimed by the spec fails; see the counterexample.) -/
theorem reachable_items_wf (d : Doc) (h : Reachable d) :
    ∀ it ∈ d, itemWF it := by
  induction h with
  | init => intro it hmem; cases hmem
  | step d0 d1 hr hs ih =>
    intro it hmem
    cases hs with
    | create nf vf newId now =>
      rcases createTx_mem nf vf newId now d0 it hmem with h1 | ⟨name, value, hn, hv, h2⟩
      · exact ih it h1
      · exact h2 ▸ itemWF_trimmed newId name value now hn hv
    | update idp nf vf now =>
      rcases updateById_mem idp nf vf now d0 it hmem with h1 | ⟨x, hx, h2⟩
      · exact ih it h1
      · exact h2 ▸ itemWF_applyUpdate nf vf now x (ih x hx)
    | deleteOne idp =>
      exact ih it (deleteById_mem idp d0 it hmem)
    | clear => cases hmem

/-- C1 counterexample: the claim "every stored name is 1-100 characters"
fails.  A whitespace-only name of raw length 1 passes the raw-length
validation of POST /tx, and the trimmed empty string is stored: starting from
the empty document, create with name " " and value "v" stores an item whose
name has length 0. -/
theorem createTx_whitespace_name_stored_empty :
    (createTx (Field.str " ") (Field.str "v") "id1" 0 []).2 =
      [{ id := "id1", name := "", value := "v", time := 0 }] ∧
    ¬ (1 ≤ String.length "") := by decide

/-- Witness for reachable_items_wf: the document reached by one create with
name " a " and value "b" contains the item with trimmed name "a", and that
item is well formed. -/
theorem reachable_items_wf_witness :
    itemWF { id := "i", name := "a", value := "b", time := 5 } := by
  have hr : Reachable ((createTx (Field.str " a ") (Field.str "b") "i" 5 []).2) :=
    Reachable.step [] _ Reachable.init
      (Step.create (Field.str " a ") (Field.str "b") "i" 5 [])
  exact reachable_items_wf _ hr _ (by decide)

/-- C2: the claim fails on the code.  The startup check for a missing or
short READONLY_API_KEY only logs a warning; `requireReadKey` still compares
the presented credential against the configured read-only secret.  With a
5-character read-only secret "short", presenting "short" is granted the
readonly role even though it differs from the admin secret, so read-only
access is NOT disabled. -/
theorem short_readonly_key_still_grants :
    requireReadKey "aaaaaaaaaaaaaaaaaaaa" (some "short") (some "short") =
      GateResult.grant Role.readonly ∧
    String.length "short" < 10 ∧
    "short" ≠ "aaaaaaaaaaaaaaaaaaaa" := by decide

/-- C3 counterexample: on the read gate the missing-credential rejection
carries the message "API key required" while a wrong credential gets
"Unauthorized", so the two messages distinguish the cases. -/
theorem read_gate_message_distinguishes :
    requireReadKey "aaaaaaaaaaaaaaaaaaaa" none none =
      GateResult.reject 401 "API key required" ∧
    requireReadKey "aaaaaaaaaaaaaaaaaaaa" none (some "wrong") =
      GateResult.reject 401 "Unauthorized" ∧
    "API key required" ≠ "Unauthorized" := by decide

/-- C3 (amended): a missing credential and a wrong credential receive the
same rejection status 401 on both gates; the admin gate also uses one
identical generic message for both cases, while the read gate's message
distinguishes them ("API key required" vs "Unauthorized"). -/
theorem gates_reject_same_status (adminKey : String) (roKey : Option String)
    (k : String) (h1 : k ≠ "") (h2 : k ≠ adminKey) (h3 : roKey ≠ some k) :
    requireAdminKey adminKey none = GateResult.reject 401 "Admin API key required" ∧
    requireAdminKey adminKey (some k) = GateResult.reject 401 "Admin API key required" ∧
    requireReadKey adminKey roKey none = GateResult.reject 401 "API key required" ∧
    requireReadKey adminKey roKey (some k) = GateResult.reject 401 "Unauthorized" := by
  refine ⟨rfl, ?_, rfl, ?_⟩
  · rw [requireAdminKey, if_neg h1, if_pos h2]
  · rw [requireReadKey, if_neg h1, if_neg h2, if_neg h3]

/-- Witness for gates_reject_same_status at a concrete configuration and
credential. -/
theorem gates_reject_same_status_witness :
    requireAdminKey "aaaaaaaaaaaaaaaaaaaa" none =
      GateResult.reject 401 "Admin API key required" ∧
    requireAdminKey "aaaaaaaaaaaaaaaaaaaa" (some "wrong") =
      GateResult.reject 401 "Admin API key required" ∧
    requireReadKey "aaaaaaaaaaaaaaaaaaaa" none none =
      GateResult.reject 401 "API key required" ∧
    requireReadKey "aaaaaaaaaaaaaaaaaaaa" none (some "wrong") =
      GateResult.reject 401 "Unauthorized" :=
  gates_reject_same_status "aaaaaaaaaaaaaaaaaaaa" none "wrong"
    (by decide) (by decide) (by decide)

/-- C4: for raw field lengths in bounds and a fresh id, create succeeds with
the item built from the trimmed fields, the fresh id and the current time,
appended at the end of the document; the handler writes the document before
responding, and a subsequent listAll returns exactly the prior items followed
by the new one. -/
theorem createTx_valid_appends (name value newId : String) (now : Nat) (d : Doc)
    (h1 : 1 ≤ name.length) (h2 : name.length ≤ 100)
    (h3 : 1 ≤ value.length) (h4 : value.length ≤ 500)
    (h5 : newId ∉ ids d) :
    createTx (Field.str name) (Field.str value) newId now d =
      (CreateResult.created
          { id := newId, name := jsTrim name, value := jsTrim value, time := now },
        d ++ [{ id := newId, name := jsTrim name, value := jsTrim value, time := now }]) ∧
    newId ∉ ids d ∧
    listAll (d ++ [{ id := newId, name := jsTrim name, value := jsTrim value, time := now }]) =
      listAll d ++ [{ id := newId, name := jsTrim name, value := jsTrim value, time := now }] ∧
    (postTx (Field.str name) (Field.str value) newId now d).ok = true ∧
    beforeRespond Effect.write
      (postTx (Field.str name) (Field.str value) newId now d).trace = true := by
  have hne : ¬ (name.length < 1 ∨ name.length > 100) := by omega
  have hve : ¬ (value.length < 1 ∨ value.length > 500) := by omega
  have hc : createTx (Field.str name) (Field.str value) newId now d =
      (CreateResult.created
          { id := newId, name := jsTrim name, value := jsTrim value, time := now },
        d ++ [{ id := newId, name := jsTrim name, value := jsTrim value, time := now }]) := by
    simp only [createTx, if_neg hne, if_neg hve]
  refine ⟨hc, h5, rfl, ?_, ?_⟩
  · simp only [postTx, hc]
  · simp only [postTx, hc]
    rfl

/-- Witness for createTx_valid_appends on the spec's example payload. -/
theorem createTx_valid_appends_witness :
    createTx (Field.str "host") (Field.str "10.0.0.1") "u1" 7 [] =
      (CreateResult.created
          { id := "u1", name := jsTrim "host", value := jsTrim "10.0.0.1", time := 7 },
        [] ++ [{ id := "u1", name := jsTrim "host", value := jsTrim "10.0.0.1", time := 7 }]) ∧
    "u1" ∉ ids [] ∧
    listAll ([] ++ [{ id := "u1", name := jsTrim "host", value := jsTrim "10.0.0.1", time := 7 }]) =
      listAll [] ++ [{ id := "u1", name := jsTrim "host", value := jsTrim "10.0.0.1", time := 7 }] ∧
    (postTx (Field.str "host") (Field.str "10.0.0.1") "u1" 7 []).ok = true ∧
    beforeRespond Effect.write
      (postTx (Field.str "host") (Field.str "10.0.0.1") "u1" 7 []).trace = true :=
  createTx_valid_appends "host" "10.0.0.1" "u1" 7 []
    (by decide) (by decide) (by decide) (by decide) (by decide)

/-- The POST /tx per-field validation: the field is a string whose raw length
is at least 1 and at most maxLen. -/
def fieldLenOK (f : Field) (maxLen : Nat) : Bool :=
  match f with
  | Field.str s => decide (1 ≤ s.length) && decide (s.length ≤ maxLen)
  | _ => false

/-- C5: when the name field is missing, not a string, empty or longer than
100 characters, or the value field is missing, not a string, empty or longer
than 500 characters, create answers InvalidInput (invalid name or invalid
value) and the document is unchanged. -/
theorem createTx_invalid_unchanged (nf vf : Field) (newId : String) (now : Nat)
    (d : Doc) (h : fieldLenOK nf 100 = false ∨ fieldLenOK vf 500 = false) :
    ((createTx nf vf newId now d).1 = CreateResult.invalidName ∨
      (createTx nf vf newId now d).1 = CreateResult.invalidValue) ∧
    (createTx nf vf newId now d).2 = d := by
  cases nf with
  | str name =>
    cases vf with
    | str value =>
      by_cases h1 : name.length < 1 ∨ name.length > 100
      · simp only [createTx, if_pos h1]
        exact ⟨Or.inl trivial, trivial⟩
      · have h2 : value.length < 1 ∨ value.length > 500 := by
          simp only [fieldLenOK, Bool.and_eq_false_iff,
            decide_eq_false_iff_not, Nat.not_le] at h
          omega
        simp only [createTx, if_neg h1, if_pos h2]
        exact ⟨Or.inr trivial, trivial⟩
    | absent =>
      by_cases h1 : name.length < 1 ∨ name.length > 100
      · simp only [createTx, if_pos h1]
        exact ⟨Or.inl trivial, trivial⟩
      · simp only [createTx, if_neg h1]
        exact ⟨Or.inr trivial, trivial⟩
    | nonString =>
      by_cases h1 : name.length < 1 ∨ name.length > 100
      · simp only [createTx, if_pos h1]
        exact ⟨Or.inl trivial, trivial⟩
      · simp only [createTx, if_neg h1]
        exact ⟨Or.inr trivial, trivial⟩
  | absent =>
    cases vf <;> exact ⟨Or.inl rfl, rfl⟩
  | nonString =>
    cases vf <;> exact ⟨Or.inl rfl, rfl⟩

/-- Witness for createTx_invalid_unchanged: an empty name on a nonempty
document. -/
theorem createTx_invalid_unchanged_witness :
    ((createTx (Field.str "") (Field.str "v") "u2" 9
        [{ id := "a", name := "n", value := "v", time := 1 }]).1 =
          CreateResult.invalidName ∨
      (createTx (Field.str "") (Field.str "v") "u2" 9
        [{ id := "a", name := "n", value := "v", time := 1 }]).1 =
          CreateResult.invalidValue) ∧
    (createTx (Field.str "") (Field.str "v") "u2" 9
        [{ id := "a", name := "n", value := "v", time := 1 }]).2 =
      [{ id := "a", name := "n", value := "v", time := 1 }] :=
  createTx_invalid_unchanged (Field.str "") (Field.str "v") "u2" 9
    [{ id := "a", name := "n", value := "v", time := 1 }] (by decide)

theorem updName_name (nf : Field) (x : Item) :
    (updName nf x).name =
      (match nf with
       | Field.str s => if s.length > 0 ∧ s.length ≤ 100 then jsTrim s else x.name
       | _ => x.name) := by
  cases nf with
  | str s =>
    show (updName (Field.str s) x).name =
      if s.length > 0 ∧ s.length ≤ 100 then jsTrim s else x.name
    rw [updName]
    by_cases hc : s.length > 0 ∧ s.length ≤ 100
    · rw [if_pos hc, if_pos hc]
    · rw [if_neg hc, if_neg hc]
  | absent => rfl
  | nonString => rfl

theorem updName_value (nf : Field) (x : Item) : (updName nf x).value = x.value := by
  cases nf with
  | str s =>
    rw [updName]
    by_cases hc : s.length > 0 ∧ s.length ≤ 100
    · rw [if_pos hc]
    · rw [if_neg hc]
  | absent => rfl
  | nonString => rfl

theorem updName_id (nf : Field) (x : Item) : (updName nf x).id = x.id := by
  cases nf with
  | str s =>
    rw [updName]
    by_cases hc : s.length > 0 ∧ s.length ≤ 100
    · rw [if_pos hc]
    · rw [if_neg hc]
  | absent => rfl
  | nonString => rfl

theorem updValue_value (vf : Field) (x : Item) :
    (updValue vf x).value =
      (match vf with
       | Field.str s => if s.length > 0 ∧ s.length ≤ 500 then jsTrim s else x.value
       | _ => x.value) := by
  cases vf with
  | str s =>
    show (updValue (Field.str s) x).value =
      if s.length > 0 ∧ s.length ≤ 500 then jsTrim s else x.value
    rw [updValue]
    by_cases hc : s.length > 0 ∧ s.length ≤ 500
    · rw [if_pos hc, if_pos hc]
    · rw [if_neg hc, if_neg hc]
  | absent => rfl
  | nonString => rfl

theorem updValue_name (vf : Field) (x : Item) : (updValue vf x).name = x.name := by
  cases vf with
  | str s =>
    rw [updValue]
    by_cases hc : s.length > 0 ∧ s.length ≤ 500
    · rw [if_pos hc]
    · rw [if_neg hc]
  | absent => rfl
  | nonString => rfl

theorem updValue_id (vf : Field) (x : Item) : (updValue vf x).id = x.id := by
  cases vf with
  | str s =>
    rw [updValue]
    by_cases hc : s.length > 0 ∧ s.length ≤ 500
    · rw [if_pos hc]
    · rw [if_neg hc]
  | absent => rfl
  | nonString => rfl

theorem updateFirst_at_first (pre post : List Item) (it : Item) (nf vf : Field)
    (now : Nat) (hfirst : it.id ∉ ids pre) :
    updateFirst it.id nf vf now (pre ++ it :: post) =
      (some (applyUpdate nf vf now it), pre ++ applyUpdate nf vf now it :: post) := by
  induction pre with
  | nil =>
    rw [List.nil_append, updateFirst, if_pos rfl, List.nil_append]
  | cons i rest ih =>
    have hne : ¬ (i.id = it.id) := by
      intro he
      exact hfirst (by rw [ids, List.map_cons, he]; exact List.mem_cons_self _ _)
    have hrest : it.id ∉ ids rest := by
      intro hm
      exact hfirst (by rw [ids, List.map_cons]; exact List.mem_cons_of_mem _ hm)
    rw [List.cons_append, updateFirst, if_neg hne, ih hrest, List.cons_append]

theorem updateById_at_first (pre post : List Item) (it : Item) (nf vf : Field)
    (now : Nat) (hfirst : it.id ∉ ids pre) :
    updateById it.id nf vf now (pre ++ it :: post) =
      (UpdateResult.updated (applyUpdate nf vf now it),
        pre ++ applyUpdate nf vf now it :: post) := by
  rw [updateById, updateFirst_at_first pre post it nf vf now hfirst]

theorem putTx_found (idp : String) (nf vf : Field) (now : Nat) (d : Doc)
    (u : Item) (doc' : Doc)
    (h : updateById idp nf vf now d = (UpdateResult.updated u, doc')) :
    putTx idp nf vf now d =
      ⟨[Effect.read, Effect.write, Effect.respond], doc', true⟩ := by
  simp only [putTx, h]

/-- C6: updateById on the id of the first occurrence of an item updates that
item in place: a supplied field that is a string with raw length in bounds is
replaced by its trimmed form, a supplied field outside the bounds (or not a
string, or absent) is silently ignored, the timestamp is refreshed, the id is
kept, the document is written before the success response, and the updated
item is returned. -/
theorem updateById_updates_valid_fields (pre post : List Item) (it : Item)
    (nf vf : Field) (now : Nat) (hfirst : it.id ∉ ids pre) :
    updateById it.id nf vf now (pre ++ it :: post) =
      (UpdateResult.updated (applyUpdate nf vf now it),
        pre ++ applyUpdate nf vf now it :: post) ∧
    (applyUpdate nf vf now it).id = it.id ∧
    (applyUpdate nf vf now it).time = now ∧
    (applyUpdate nf vf now it).name =
      (match nf with
       | Field.str s => if s.length > 0 ∧ s.length ≤ 100 then jsTrim s else it.name
       | _ => it.name) ∧
    (applyUpdate nf vf now it).value =
      (match vf with
       | Field.str s => if s.length > 0 ∧ s.length ≤ 500 then jsTrim s else it.value
       | _ => it.value) ∧
    (putTx it.id nf vf now (pre ++ it :: post)).ok = true ∧
    beforeRespond Effect.write (putTx it.id nf vf now (pre ++ it :: post)).trace = true := by
  have hu := updateById_at_first pre post it nf vf now hfirst
  have hput := putTx_found it.id nf vf now (pre ++ it :: post)
    (applyUpdate nf vf now it) (pre ++ applyUpdate nf vf now it :: post) hu
  refine ⟨hu, ?_, rfl, ?_, ?_, ?_, ?_⟩
  · exact (updValue_id vf (updName nf it)).trans (updName_id nf it)
  · exact (updValue_name vf (updName nf it)).trans (updName_name nf it)
  · have h2 := updValue_value vf (updName nf it)
    simp only [updName_value] at h2
    exact h2
  · rw [hput]
  · rw [hput]
    rfl

/-- Witness for updateById_updates_valid_fields: update the only item's name
with a padded string, leaving the value field absent. -/
theorem updateById_updates_valid_fields_witness :
    updateById "i" (Field.str " x ") Field.absent 3
        ([] ++ { id := "i", name := "n", value := "v", time := 0 } :: []) =
      (UpdateResult.updated
          (applyUpdate (Field.str " x ") Field.absent 3
            { id := "i", name := "n", value := "v", time := 0 }),
        [] ++ applyUpdate (Field.str " x ") Field.absent 3
            { id := "i", name := "n", value := "v", time := 0 } :: []) ∧
    (applyUpdate (Field.str " x ") Field.absent 3
        { id := "i", name := "n", value := "v", time := 0 }).id = "i" ∧
    (applyUpdate (Field.str " x ") Field.absent 3
        { id := "i", name := "n", value := "v", time := 0 }).time = 3 ∧
    (applyUpdate (Field.str " x ") Field.absent 3
        { id := "i", name := "n", value := "v", time := 0 }).name =
      (if (" x " : String).length > 0 ∧ (" x " : String).length ≤ 100
        then jsTrim " x " else "n") ∧
    (applyUpdate (Field.str " x ") Field.absent 3
        { id := "i", name := "n", value := "v", time := 0 }).value = "v" ∧
    (putTx "i" (Field.str " x ") Field.absent 3
        ([] ++ { id := "i", name := "n", value := "v", time := 0 } :: [])).ok = true ∧
    beforeRespond Effect.write
      (putTx "i" (Field.str " x ") Field.absent 3
        ([] ++ { id := "i", name := "n", value := "v", time := 0 } :: [])).trace = true :=
  updateById_updates_valid_fields [] []
    { id := "i", name := "n", value := "v", time := 0 }
    (Field.str " x ") Field.absent 3 (by decide)

theorem deleteFirst_at_first (pre post : List Item) (it : Item)
    (hfirst : it.id ∉ ids pre) :
    deleteFirst it.id (pre ++ it :: post) = (some it, pre ++ post) := by
  induction pre with
  | nil => rw [List.nil_append, deleteFirst, if_pos rfl, List.nil_append]
  | cons i rest ih =>
    have hne : ¬ (i.id = it.id) := by
      intro he
      exact hfirst (by rw [ids, List.map_cons, he]; exact List.mem_cons_self _ _)
    have hrest : it.id ∉ ids rest := by
      intro hm
      exact hfirst (by rw [ids, List.map_cons]; exact List.mem_cons_of_mem _ hm)
    rw [List.cons_append, deleteFirst, if_neg hne, ih hrest, List.cons_append]

theorem deleteFirst_not_present (idp : String) (d : Doc) (h : idp ∉ ids d) :
    deleteFirst idp d = (none, d) := by
  induction d with
  | nil => rfl
  | cons i rest ih =>
    have hne : ¬ (i.id = idp) := by
      intro he
      exact h (by rw [ids, List.map_cons, he]; exact List.mem_cons_self _ _)
    have hrest : idp ∉ ids rest := by
      intro hm
      exact h (by rw [ids, List.map_cons]; exact List.mem_cons_of_mem _ hm)
    rw [deleteFirst, if_neg hne, ih hrest]

/-- C7: deleteById on the id of an item whose id occurs nowhere else removes
exactly that item and returns it (the handler writes before responding); a
second deleteById with the same id answers NotFound and leaves the document
unchanged (and the handler does not acknowledge success). -/
theorem deleteById_then_notFound (pre post : List Item) (it : Item)
    (h1 : it.id ∉ ids pre) (h2 : it.id ∉ ids post) :
    deleteById it.id (pre ++ it :: post) = (some it, pre ++ post) ∧
    deleteById it.id (pre ++ post) = (none, pre ++ post) ∧
    (deleteTx it.id (pre ++ it :: post)).ok = true ∧
    beforeRespond Effect.write (deleteTx it.id (pre ++ it :: post)).trace = true ∧
    (deleteTx it.id (pre ++ post)).ok = false ∧
    (deleteTx it.id (pre ++ post)).disk = pre ++ post := by
  have hd1 : deleteById it.id (pre ++ it :: post) = (some it, pre ++ post) := by
    rw [deleteById, deleteFirst_at_first pre post it h1]
  have hnotin : it.id ∉ ids (pre ++ post) := by
    rw [ids, List.map_append]
    intro hm
    rcases List.mem_append.mp hm with hm | hm
    · exact h1 hm
    · exact h2 hm
  have hd2 : deleteById it.id (pre ++ post) = (none, pre ++ post) := by
    rw [deleteById, deleteFirst_not_present it.id (pre ++ post) hnotin]
  refine ⟨hd1, hd2, ?_, ?_, ?_, ?_⟩
  · simp only [deleteTx, hd1]
  · simp only [deleteTx, hd1]
    rfl
  · simp only [deleteTx, hd2]
  · simp only [deleteTx, hd2]

/-- Witness for deleteById_then_notFound on a two-item document. -/
theorem deleteById_then_notFound_witness :
    deleteById "b" ([{ id := "a", name := "n", value := "v", time := 1 }] ++
        { id := "b", name := "m", value := "w", time := 2 } :: []) =
      (some { id := "b", name := "m", value := "w", time := 2 },
        [{ id := "a", name := "n", value := "v", time := 1 }] ++ []) ∧
    deleteById "b" ([{ id := "a", name := "n", value := "v", time := 1 }] ++ []) =
      (none, [{ id := "a", name := "n", value := "v", time := 1 }] ++ []) ∧
    (deleteTx "b" ([{ id := "a", name := "n", value := "v", time := 1 }] ++
        { id := "b", name := "m", value := "w", time := 2 } :: [])).ok = true ∧
    beforeRespond Effect.write
      (deleteTx "b" ([{ id := "a", name := "n", value := "v", time := 1 }] ++
        { id := "b", name := "m", value := "w", time := 2 } :: [])).trace = true ∧
    (deleteTx "b" ([{ id := "a", name := "n", value := "v", time := 1 }] ++ [])).ok = false ∧
    (deleteTx "b" ([{ id := "a", name := "n", value := "v", time := 1 }] ++ [])).disk =
      [{ id := "a", name := "n", value := "v", time := 1 }] ++ [] :=
  deleteById_then_notFound [{ id := "a", name := "n", value := "v", time := 1 }] []
    { id := "b", name := "m", value := "w", time := 2 } (by decide) (by decide)

/-- C10: updateById with a body supplying no valid field still succeeds: the
item keeps its name and value, its timestamp is refreshed, the rewritten
document is saved before the success response, and the item is returned. -/
theorem updateById_empty_body (pre post : List Item) (it : Item) (now : Nat)
    (hfirst : it.id ∉ ids pre) :
    updateById it.id Field.absent Field.absent now (pre ++ it :: post) =
      (UpdateResult.updated { it with time := now },
        pre ++ { it with time := now } :: post) ∧
    ({ it with time := now } : Item).name = it.name ∧
    ({ it with time := now } : Item).value = it.value ∧
    ({ it with time := now } : Item).id = it.id ∧
    ({ it with time := now } : Item).time = now ∧
    (putTx it.id Field.absent Field.absent now (pre ++ it :: post)).ok = true ∧
    beforeRespond Effect.write
      (putTx it.id Field.absent Field.absent now (pre ++ it :: post)).trace = true := by
  have hu := updateById_at_first pre post it Field.absent Field.absent now hfirst
  have hput := putTx_found it.id Field.absent Field.absent now (pre ++ it :: post)
    (applyUpdate Field.absent Field.absent now it)
    (pre ++ applyUpdate Field.absent Field.absent now it :: post) hu
  refine ⟨hu, rfl, rfl, rfl, rfl, ?_, ?_⟩
  · rw [hput]
  · rw [hput]
    rfl

/-- Witness for updateById_empty_body on a singleton document. -/
theorem updateById_empty_body_witness :
    updateById "i" Field.absent Field.absent 9
        ([] ++ { id := "i", name := "n", value := "v", time := 0 } :: []) =
      (UpdateResult.updated { id := "i", name := "n", value := "v", time := 9 },
        [] ++ { id := "i", name := "n", value := "v", time := 9 } :: []) ∧
    ({ id := "i", name := "n", value := "v", time := 9 } : Item).name = "n" ∧
    ({ id := "i", name := "n", value := "v", time := 9 } : Item).value = "v" ∧
    ({ id := "i", name := "n", value := "v", time := 9 } : Item).id = "i" ∧
    ({ id := "i", name := "n", value := "v", time := 9 } : Item).time = 9 ∧
    (putTx "i" Field.absent Field.absent 9
        ([] ++ { id := "i", name := "n", value := "v", time := 0 } :: [])).ok = true ∧
    beforeRespond Effect.write
      (putTx "i" Field.absent Field.absent 9
        ([] ++ { id := "i", name := "n", value := "v", time := 0 } :: [])).trace = true :=
  updateById_empty_body [] [] { id := "i", name := "n", value := "v", time := 0 } 9
    (by decide)

/-- C8: a request presenting the configured read-only credential (distinct
from the admin secret and nonempty) is granted the readonly role on the
routes registered with the read gate (listAll, queryByName) and rejected on
the routes registered with the admin gate; and a route is registered with the
admin-only gate exactly when its operation mutates the document. -/
theorem readonly_role_route_access (adminKey ro : String) (op : Op)
    (h1 : ro ≠ adminKey) (h2 : ro ≠ "") :
    (isMutatingOp op = true ↔ routeGate op = Gate.adminOnly) ∧
    (isMutatingOp op = false →
      runGate (routeGate op) adminKey (some ro) (some ro) =
        GateResult.grant Role.readonly) ∧
    (isMutatingOp op = true →
      isGrant (runGate (routeGate op) adminKey (some ro) (some ro)) = false) := by
  have hread : requireReadKey adminKey (some ro) (some ro) =
      GateResult.grant Role.readonly := by
    rw [requireReadKey, if_neg h2, if_neg h1, if_pos rfl]
  have hadmin : requireAdminKey adminKey (some ro) =
      GateResult.reject 401 "Admin API key required" := by
    rw [requireAdminKey, if_neg h2, if_pos h1]
  cases op <;>
    simp [routeGate, isMutatingOp, runGate, hread, hadmin, isGrant]

/-- Witness for readonly_role_route_access on the listAll route with a
concrete configuration. -/
theorem readonly_role_route_access_witness :
    (isMutatingOp Op.listAll = true ↔ routeGate Op.listAll = Gate.adminOnly) ∧
    (isMutatingOp Op.listAll = false →
      runGate (routeGate Op.listAll) "aaaaaaaaaaaaaaaaaaaa"
        (some "readonlykey") (some "readonlykey") =
        GateResult.grant Role.readonly) ∧
    (isMutatingOp Op.listAll = true →
      isGrant (runGate (routeGate Op.listAll) "aaaaaaaaaaaaaaaaaaaa"
        (some "readonlykey") (some "readonlykey")) = false) :=
  readonly_role_route_access "aaaaaaaaaaaaaaaaaaaa" "readonlykey" Op.listAll
    (by decide) (by decide)

/-- C9: every mutating handler that acknowledges success performs the
`db.write()` strictly before responding (deleteAll unconditionally), and both
read handlers perform the `db.read()` reload strictly before responding. -/
theorem handlers_persist_and_reload
    (nf vf : Field) (newId : String) (now : Nat) (d1 : Doc)
    (i2 : String) (nf2 vf2 : Field) (now2 : Nat) (d2 : Doc)
    (i3 : String) (d3 : Doc) (d4 d5 : Doc) (nm : String) (d6 : Doc)
    (h1 : (postTx nf vf newId now d1).ok = true)
    (h2 : (putTx i2 nf2 vf2 now2 d2).ok = true)
    (h3 : (deleteTx i3 d3).ok = true) :
    beforeRespond Effect.write (postTx nf vf newId now d1).trace = true ∧
    beforeRespond Effect.write (putTx i2 nf2 vf2 now2 d2).trace = true ∧
    beforeRespond Effect.write (deleteTx i3 d3).trace = true ∧
    beforeRespond Effect.write (deleteTxAll d4).trace = true ∧
    beforeRespond Effect.read (getRx d5).trace = true ∧
    beforeRespond Effect.read (getRxName nm d6).trace = true := by
  refine ⟨?_, ?_, ?_, rfl, rfl, rfl⟩
  · rcases hc : createTx nf vf newId now d1 with ⟨r, doc'⟩
    cases r with
    | created item => simp only [postTx, hc]; rfl
    | invalidName =>
      simp only [postTx, hc] at h1
      exact Bool.noConfusion h1
    | invalidValue =>
      simp only [postTx, hc] at h1
      exact Bool.noConfusion h1
  · rcases hc : updateById i2 nf2 vf2 now2 d2 with ⟨r, doc'⟩
    cases r with
    | updated item => simp only [putTx, hc]; rfl
    | notFound =>
      simp only [putTx, hc] at h2
      exact Bool.noConfusion h2
  · rcases hc : deleteById i3 d3 with ⟨r, doc'⟩
    cases r with
    | some item => simp only [deleteTx, hc]; rfl
    | none =>
      simp only [deleteTx, hc] at h3
      exact Bool.noConfusion h3

/-- Witness for handlers_persist_and_reload at concrete successful
requests. -/
theorem handlers_persist_and_reload_witness :
    beforeRespond Effect.write
      (postTx (Field.str "a") (Field.str "b") "u" 1 []).trace = true ∧
    beforeRespond Effect.write
      (putTx "i" Field.absent Field.absent 2
        [{ id := "i", name := "n", value := "v", time := 0 }]).trace = true ∧
    beforeRespond Effect.write
      (deleteTx "i" [{ id := "i", name := "n", value := "v", time := 0 }]).trace = true ∧
    beforeRespond Effect.write (deleteTxAll []).trace = true ∧
    beforeRespond Effect.read (getRx []).trace = true ∧
    beforeRespond Effect.read (getRxName "q" []).trace = true :=
  handlers_persist_and_reload (Field.str "a") (Field.str "b") "u" 1 []
    "i" Field.absent Field.absent 2 [{ id := "i", name := "n", value := "v", time := 0 }]
    "i" [{ id := "i", name := "n", value := "v", time := 0 }] [] [] "q" []
    (by decide) (by decide) (by decide)

end ItemStore
